import Mathlib

/-!
Shallow embedding of the CryptoTrack portfolio-manager core: the Holding
model (mongoose schema methods), the per-holding valuation math inlined in
the portfolio route handlers, the analytics ranking/allocation pipeline, and
the CoinGecko service with its time-bounded memo cache.

JavaScript numbers are modelled as rationals (`ℚ`), timestamps as integers
(`ℤ` milliseconds), the JS `Map` backing the cache as a function
`String → Option CacheEntry`, and the mocked upstream HTTP client as a pure
function argument.  `getSimplePrices` / `getCoin` are modelled as explicit
state-passing functions over a service state that also counts upstream HTTP
calls (the call-count instrumentation the spec's tests ask for).
-/

namespace CryptoTrack

/-- A holding document (mongoose `holdingSchema` in the Holding model file):
user-entered fields plus the persisted derived fields, which default to 0. -/
structure Holding where
  coinId : String
  coinName : String := ""
  symbol : String := ""
  amount : ℚ
  buyPrice : ℚ
  currentPrice : ℚ := 0
  currentValue : ℚ := 0
  profitLoss : ℚ := 0
  profitLossPercentage : ℚ := 0
  lastUpdated : ℤ := 0
deriving DecidableEq, Repr

/-- The `totalInvestment` virtual of the Holding schema: `amount * buyPrice`. -/
def Holding.totalInvestment (h : Holding) : ℚ :=
  h.amount * h.buyPrice

/-- `holdingSchema.methods.calculateProfitLoss(currentPrice)`: guarded by
`if (!currentPrice || currentPrice <= 0) return this;` — for a numeric
argument the guard fires exactly when `currentPrice ≤ 0` (a falsy numeric
price is `0`, which is `≤ 0`).  Otherwise it overwrites the derived fields
and `lastUpdated` (the current clock is passed explicitly as `now`).
Note the percentage on this path divides by `totalInvestment` with no zero
guard, exactly as in the source. -/
def Holding.calculateProfitLoss (h : Holding) (currentPrice : ℚ) (now : ℤ) : Holding :=
  if currentPrice ≤ 0 then h
  else
    let currentValue := h.amount * currentPrice
    { h with
      currentPrice := currentPrice
      currentValue := currentValue
      profitLoss := currentValue - h.totalInvestment
      profitLossPercentage := ((currentValue - h.totalInvestment) / h.totalInvestment) * 100
      lastUpdated := now }

/-- `currentPrices[holding.coinId]?.[currency] || 0` — the per-coin price
lookup with its `|| 0` fallback: an absent quote is treated as price 0.
The surrounding per-currency indexing is flattened into one lookup. -/
def resolvePrice (prices : String → Option ℚ) (coinId : String) : ℚ :=
  match prices coinId with
  | some p => p
  | none => 0

/-- The per-holding body of the `GET /api/portfolio` handler's map:
computes `investment`, `currentValue`, `profitLoss`,
`profitLossPercentage` (zero-guarded on `investment > 0`) and writes the
derived fields plus `lastUpdated` back onto the holding. -/
def routeAugment (prices : String → Option ℚ) (now : ℤ) (h : Holding) : Holding :=
  let currentPrice := resolvePrice prices h.coinId
  let investment := h.amount * h.buyPrice
  let currentValue := h.amount * currentPrice
  let profitLoss := currentValue - investment
  let profitLossPercentage := if 0 < investment then profitLoss / investment * 100 else 0
  { h with
    currentPrice := currentPrice
    currentValue := currentValue
    profitLoss := profitLoss
    profitLossPercentage := profitLossPercentage
    lastUpdated := now }

/-- An element of `holdingsWithCalc` in the `GET /api/portfolio/analytics`
handler: the holding's own fields spread together with the computed
`currentPrice`, `currentValue`, `profitLoss`, `profitLossPercentage` and
`investment`. -/
structure AugHolding where
  coinId : String
  coinName : String := ""
  symbol : String := ""
  amount : ℚ
  buyPrice : ℚ
  currentPrice : ℚ
  currentValue : ℚ
  profitLoss : ℚ
  profitLossPercentage : ℚ
  investment : ℚ
deriving DecidableEq, Repr

/-- The per-holding body of the analytics handler's `holdings.map`: the same
four formulas as the portfolio route, returning a spread record that keeps
`investment`. -/
def analyticsAug (prices : String → Option ℚ) (h : Holding) : AugHolding :=
  let currentPrice := resolvePrice prices h.coinId
  let investment := h.amount * h.buyPrice
  let currentValue := h.amount * currentPrice
  let profitLoss := currentValue - investment
  let profitLossPercentage := if 0 < investment then profitLoss / investment * 100 else 0
  { coinId := h.coinId
    coinName := h.coinName
    symbol := h.symbol
    amount := h.amount
    buyPrice := h.buyPrice
    currentPrice := currentPrice
    currentValue := currentValue
    profitLoss := profitLoss
    profitLossPercentage := profitLossPercentage
    investment := investment }

/-- `holdingsWithCalc` of the analytics handler. -/
def holdingsWithCalc (prices : String → Option ℚ) (hs : List Holding) : List AugHolding :=
  hs.map (analyticsAug prices)

/-- `totalInvestment` accumulated over the analytics map loop. -/
def totalInvestment (l : List AugHolding) : ℚ :=
  (l.map (·.investment)).sum

/-- `totalCurrentValue` accumulated over the analytics map loop. -/
def totalCurrentValue (l : List AugHolding) : ℚ :=
  (l.map (·.currentValue)).sum

/-- One insertion step of a stable descending sort by the numeric key `k`:
the JS engine's `Array.prototype.sort` is stable, so sorting with comparator
`(a, b) => k(b) - k(a)` places `x` before the first element `y` with
`k y ≤ k x` and otherwise keeps earlier elements first. -/
def insertKeyDesc (k : α → ℚ) (x : α) : List α → List α
  | [] => [x]
  | y :: ys => if k y ≤ k x then x :: y :: ys else y :: insertKeyDesc k x ys

/-- Stable descending sort by key `k`, modelling `arr.sort((a, b) => k(b) - k(a))`. -/
def sortKeyDesc (k : α → ℚ) : List α → List α
  | [] => []
  | x :: xs => insertKeyDesc k x (sortKeyDesc k xs)

/-- `sortedByPerformance` in the analytics handler:
`[...holdingsWithCalc].sort((a, b) => b.profitLossPercentage - a.profitLossPercentage)`. -/
def sortedByPerformance (l : List AugHolding) : List AugHolding :=
  sortKeyDesc (·.profitLossPercentage) l

/-- `topPerformers = sortedByPerformance.slice(0, n)` (the handler uses `n = 5`). -/
def topPerformers (n : Nat) (l : List AugHolding) : List AugHolding :=
  (sortedByPerformance l).take n

/-- `worstPerformers = sortedByPerformance.slice(-n).reverse()` (the handler
uses `n = 5`); `slice(-n)` keeps the last `min n length` elements. -/
def worstPerformers (n : Nat) (l : List AugHolding) : List AugHolding :=
  ((sortedByPerformance l).drop (l.length - n)).reverse

/-- An `allocationByValue` entry (`coinName`/`symbol` carried along as in the
source). -/
structure ValueAlloc where
  coinId : String
  coinName : String := ""
  symbol : String := ""
  value : ℚ
  percentage : ℚ
deriving DecidableEq, Repr

/-- An `allocationByInvestment` entry. -/
structure InvestAlloc where
  coinId : String
  coinName : String := ""
  symbol : String := ""
  investment : ℚ
  percentage : ℚ
deriving DecidableEq, Repr

/-- `allocationByValue` of the analytics handler: filter holdings with
`currentValue > 0`, map to entries whose percentage is relative to the
`totalCurrentValue` accumulated over ALL holdings (zero-guarded), then sort
descending by `value`. -/
def allocationByValue (l : List AugHolding) : List ValueAlloc :=
  sortKeyDesc (·.value)
    ((l.filter (fun h => decide (0 < h.currentValue))).map (fun h =>
      { coinId := h.coinId
        coinName := h.coinName
        symbol := h.symbol
        value := h.currentValue
        percentage :=
          if 0 < totalCurrentValue l then h.currentValue / totalCurrentValue l * 100 else 0 }))

/-- `allocationByInvestment` of the analytics handler: every holding is
mapped (no filter), percentage relative to `totalInvestment` (zero-guarded),
sorted descending by `investment`. -/
def allocationByInvestment (l : List AugHolding) : List InvestAlloc :=
  sortKeyDesc (·.investment)
    (l.map (fun h =>
      { coinId := h.coinId
        coinName := h.coinName
        symbol := h.symbol
        investment := h.investment
        percentage :=
          if 0 < totalInvestment l then h.investment / totalInvestment l * 100 else 0 }))

/-! ## CoinGecko service (cache + upstream client) -/

/-- `this.cacheTimeout = 60000` — one-minute TTL fixed in the constructor. -/
def cacheTimeout : ℤ := 60000

/-- One stored cache record: `{ data, timestamp: Date.now() }`. -/
structure CacheEntry (α : Type) where
  data : α
  timestamp : ℤ
deriving DecidableEq, Repr

/-- The JS `Map` backing `this.cache`, as a total lookup function. -/
def CacheMap (α : Type) : Type := String → Option (CacheEntry α)

/-- `getCachedData(key)`: return the stored data only when
`Date.now() - cached.timestamp < this.cacheTimeout`; otherwise `null`. -/
def getCachedData (m : CacheMap α) (key : String) (now : ℤ) : Option α :=
  match m key with
  | some cached => if now - cached.timestamp < cacheTimeout then some cached.data else none
  | none => none

/-- `setCachedData(key, data)`: unconditionally overwrite with
`timestamp = Date.now()`. -/
def setCachedData (m : CacheMap α) (key : String) (data : α) (now : ℤ) : CacheMap α :=
  fun k => if k = key then some { data := data, timestamp := now } else m k

/-- Service state: the memo cache plus an upstream HTTP call counter (the
"call-count assertion on a mocked upstream client" of the spec's tests). -/
structure ServiceState (α : Type) where
  cache : CacheMap α
  upstreamCalls : Nat

/-- A freshly constructed service: empty cache, no upstream calls yet. -/
def initialState : ServiceState α :=
  { cache := fun _ => none, upstreamCalls := 0 }

/-- The JSON payload of `/simple/price`: coin id ↦ currency ↦ price. -/
def PriceData : Type := List (String × List (String × ℚ))

/-- `getSimplePrices(coinIds, vs_currencies)`: empty `coinIds` short-circuits
to `{}`; the cache key is `prices_${coinIds.join(',')}_${vs_currencies.join(',')}`
(the ids joined in request order — NOT sorted); on a miss the mocked
upstream is called once and the response stored. -/
def getSimplePrices (upstream : List String → List String → PriceData)
    (coinIds vs_currencies : List String) (now : ℤ) (s : ServiceState PriceData) :
    PriceData × ServiceState PriceData :=
  if coinIds.isEmpty then ([], s)
  else
    let cacheKey :=
      "prices_" ++ String.intercalate "," coinIds ++ "_" ++ String.intercalate "," vs_currencies
    match getCachedData s.cache cacheKey now with
    | some cached => (cached, s)
    | none =>
      let data := upstream coinIds vs_currencies
      (data,
        { cache := setCachedData s.cache cacheKey data now
          upstreamCalls := s.upstreamCalls + 1 })

/-- The opaque `/coins/{id}` payload. -/
def CoinData : Type := String

/-- Outcome of one upstream HTTP request for a coin: success, an explicit
404 coin-not-found, or a transport/5xx failure with its cause. -/
inductive UpstreamResult (α : Type) where
  | ok (data : α)
  | notFound
  | transportError (cause : String)
deriving DecidableEq, Repr

/-- `getCoin(coinId)`: cache check under key `coin_${coinId}`; on a miss the
upstream is called and EVERY failure — not-found and transport alike — is
rethrown as the single generic
`new Error(\x60Failed to fetch data for coin: ${coinId}\x60)`. -/
def getCoin (upstream : String → UpstreamResult CoinData) (coinId : String) (now : ℤ)
    (s : ServiceState CoinData) : Except String CoinData × ServiceState CoinData :=
  let cacheKey := "coin_" ++ coinId
  match getCachedData s.cache cacheKey now with
  | some cached => (Except.ok cached, s)
  | none =>
    match upstream coinId with
    | UpstreamResult.ok data =>
        (Except.ok data,
          { cache := setCachedData s.cache cacheKey data now
            upstreamCalls := s.upstreamCalls + 1 })
    | UpstreamResult.notFound =>
        (Except.error ("Failed to fetch data for coin: " ++ coinId),
          { s with upstreamCalls := s.upstreamCalls + 1 })
    | UpstreamResult.transportError _ =>
        (Except.error ("Failed to fetch data for coin: " ++ coinId),
          { s with upstreamCalls := s.upstreamCalls + 1 })

/-! ## Concrete inputs used by the end-to-end scenarios -/

/-- The spec's full-loss scenario holding: `{amount: 1, buyPrice: 50}`. -/
def exHoldingLoss : Holding :=
  { coinId := "bitcoin", amount := 1, buyPrice := 50 }

/-- The spec's gain scenario holding: `{amount: 2, buyPrice: 100}`. -/
def exHoldingGain : Holding :=
  { coinId := "bitcoin", amount := 2, buyPrice := 100 }

/-- A price table quoting every coin at 150. -/
def exPrice150 : String → Option ℚ := fun _ => some 150

/-- A price table with every quote missing (upstream gave nothing). -/
def exPriceNone : String → Option ℚ := fun _ => none

/-- An augmented holding carrying a given performance percentage, for the
ranking scenarios. -/
def mkPerf (coinId : String) (pct : ℚ) : AugHolding :=
  { coinId := coinId, amount := 1, buyPrice := 1, currentPrice := 0, currentValue := 0,
    profitLoss := 0, profitLossPercentage := pct, investment := 1 }

/-- The spec's ranking scenario: performances `[+10%, -5%, +30%, 0%]`. -/
def perfExample : List AugHolding :=
  [mkPerf "a" 10, mkPerf "b" (-5), mkPerf "c" 30, mkPerf "d" 0]

/-- Two holdings with identical performance, in a known input order. -/
def tieExample : List AugHolding :=
  [mkPerf "first" 0, mkPerf "second" 0]

/-- A mocked upstream `/simple/price` client: quotes every requested coin at
100 in every requested currency. -/
def mockUpstream : List String → List String → PriceData :=
  fun ids curs => ids.map (fun i => (i, curs.map (fun c => (c, 100))))

/-- First request of the permutation scenario: `{btc, eth}` in one order. -/
def c4FirstCall : PriceData × ServiceState PriceData :=
  getSimplePrices mockUpstream ["btc", "eth"] ["usd"] 0 initialState

/-- Second request of the permutation scenario: the same coin set in the
other order, one millisecond later (well inside the TTL window). -/
def c4SecondCall : PriceData × ServiceState PriceData :=
  getSimplePrices mockUpstream ["eth", "btc"] ["usd"] 1 c4FirstCall.2

/-- A mocked upstream coin-detail client that reports no such coin. -/
def mockNotFound : String → UpstreamResult CoinData :=
  fun _ => UpstreamResult.notFound

/-- A mocked upstream coin-detail client that fails at the transport level. -/
def mockTransportFail : String → UpstreamResult CoinData :=
  fun _ => UpstreamResult.transportError "ECONNABORTED"

/-- A two-holding portfolio for the allocation scenarios. -/
def exPortfolio : List Holding :=
  [{ coinId := "bitcoin", amount := 1, buyPrice := 100 },
   { coinId := "ethereum", amount := 2, buyPrice := 150 }]

/-- Prices for the allocation scenarios: bitcoin quoted at 150, the
ethereum quote missing (so its current price resolves to 0). -/
def exPrices : String → Option ℚ :=
  fun c => if c = "bitcoin" then some 150 else none

/-- The augmented holdings of the allocation scenarios. -/
def exAug : List AugHolding :=
  holdingsWithCalc exPrices exPortfolio

/-! ## Helper lemmas about the stable descending sort -/

/-- Inserting with `insertKeyDesc` is a permutation step. -/
theorem perm_insertKeyDesc (k : α → ℚ) (x : α) (m : List α) :
    List.Perm (insertKeyDesc k x m) (x :: m) := by
  induction m with
  | nil => exact List.Perm.refl _
  | cons y ys ih =>
    simp only [insertKeyDesc]
    split
    · exact List.Perm.refl _
    · exact (List.Perm.cons y ih).trans (List.Perm.swap x y ys)

/-- `sortKeyDesc` permutes its input. -/
theorem perm_sortKeyDesc (k : α → ℚ) (l : List α) : List.Perm (sortKeyDesc k l) l := by
  induction l with
  | nil => exact List.Perm.refl _
  | cons x xs ih =>
    exact (perm_insertKeyDesc k x (sortKeyDesc k xs)).trans (List.Perm.cons x ih)

/-- Inserting into a descending-sorted list keeps it descending-sorted. -/
theorem pairwise_insertKeyDesc (k : α → ℚ) (x : α) {m : List α}
    (h : m.Pairwise (fun a b => k b ≤ k a)) :
    (insertKeyDesc k x m).Pairwise (fun a b => k b ≤ k a) := by
  induction m with
  | nil => simp [insertKeyDesc]
  | cons y ys ih =>
    rw [List.pairwise_cons] at h
    simp only [insertKeyDesc]
    split
    · rename_i h1
      rw [List.pairwise_cons]
      refine ⟨?_, List.pairwise_cons.mpr h⟩
      intro b hb
      rcases List.mem_cons.mp hb with hb | hb
      · exact hb ▸ h1
      · exact le_trans (h.1 b hb) h1
    · rename_i h1
      rw [List.pairwise_cons]
      refine ⟨?_, ih h.2⟩
      intro b hb
      rcases List.mem_cons.mp ((perm_insertKeyDesc k x ys).mem_iff.mp hb) with hb | hb
      · exact hb ▸ le_of_lt (lt_of_not_le h1)
      · exact h.1 b hb

/-- `sortKeyDesc` output is descending in the key. -/
theorem pairwise_sortKeyDesc (k : α → ℚ) (l : List α) :
    (sortKeyDesc k l).Pairwise (fun a b => k b ≤ k a) := by
  induction l with
  | nil => simp [sortKeyDesc]
  | cons x xs ih => exact pairwise_insertKeyDesc k x ih

/-- Filtering one key tier out of an insertion step: the inserted element
lands in front of its whole tier (elements skipped past have a strictly
larger key). -/
theorem filter_insertKeyDesc (k : α → ℚ) (x : α) (m : List α) (q : ℚ) :
    (insertKeyDesc k x m).filter (fun a => decide (k a = q)) =
      if k x = q then x :: m.filter (fun a => decide (k a = q))
      else m.filter (fun a => decide (k a = q)) := by
  induction m with
  | nil =>
    simp only [insertKeyDesc, List.filter]
    by_cases hx : k x = q <;> simp [hx]
  | cons y ys ih =>
    simp only [insertKeyDesc]
    split
    · rename_i h1
      by_cases hx : k x = q <;> simp [List.filter_cons, hx]
    · rename_i h1
      by_cases hx : k x = q
      · have hy : ¬ k y = q := fun hy => h1 (le_of_eq (hx ▸ hy))
        simp [List.filter_cons, hx, hy, ih]
      · by_cases hy : k y = q <;> simp [List.filter_cons, hx, hy, ih]

/-- Stability of `sortKeyDesc`: within one key tier the original input order
is preserved (the sorted list filtered to a tier equals the input filtered
to that tier). -/
theorem filter_sortKeyDesc (k : α → ℚ) (l : List α) (q : ℚ) :
    (sortKeyDesc k l).filter (fun a => decide (k a = q)) =
      l.filter (fun a => decide (k a = q)) := by
  induction l with
  | nil => rfl
  | cons x xs ih =>
    simp only [sortKeyDesc, filter_insertKeyDesc, ih, List.filter_cons]
    by_cases hx : k x = q <;> simp [hx]

/-- Sorting does not change the sum of any mapped quantity. -/
theorem sum_map_sortKeyDesc (k : α → ℚ) (f : α → ℚ) (l : List α) :
    ((sortKeyDesc k l).map f).sum = (l.map f).sum :=
  ((perm_sortKeyDesc k l).map f).sum_eq

/-- Sorting does not change the length. -/
theorem length_sortKeyDesc (k : α → ℚ) (l : List α) :
    (sortKeyDesc k l).length = l.length :=
  (perm_sortKeyDesc k l).length_eq

/-- Dropping the entries with a non-positive value of a nonnegative quantity
does not change its sum. -/
theorem sum_map_filter_pos (f : α → ℚ) (l : List α) (h : ∀ a ∈ l, 0 ≤ f a) :
    ((l.filter (fun a => decide (0 < f a))).map f).sum = (l.map f).sum := by
  induction l with
  | nil => rfl
  | cons x xs ih =>
    have hx : 0 ≤ f x := h x (List.mem_cons_self x xs)
    have ihx := ih (fun a ha => h a (List.mem_cons_of_mem x ha))
    by_cases hpos : 0 < f x
    · simp [List.filter_cons, hpos, ihx]
    · have hz : f x = 0 := le_antisymm (not_lt.mp hpos) hx
      simp [List.filter_cons, hpos, ihx, hz]

/-! ## Claim theorems -/

/-- C1 (counterexample): the claim asserts that the Holding model's
`calculateProfitLoss` also reports the full notional loss at current price
0; on the concrete holding `{amount: 1, buyPrice: 50}` with price 0 the
method leaves the stored derived fields untouched, so `profitLoss` is 0,
not −50, and `profitLossPercentage` is 0, not −100. -/
theorem c1_calculateProfitLoss_not_full_loss :
    exHoldingLoss.amount = 1 ∧ exHoldingLoss.buyPrice = 50
    ∧ (exHoldingLoss.calculateProfitLoss 0 7).profitLoss ≠ -50
    ∧ (exHoldingLoss.calculateProfitLoss 0 7).profitLossPercentage ≠ -100 := by
  refine ⟨rfl, rfl, ?_, ?_⟩ <;>
    norm_num [Holding.calculateProfitLoss, exHoldingLoss]

/-- C1 (amended): for a holding with positive investment, the route-level
inline valuation at an absent or zero current price yields
`currentValue = 0`, `profitLoss = -investment`,
`profitLossPercentage = -100` (in particular −50 and −100 for
`{amount: 1, buyPrice: 50}`); the Holding model's `calculateProfitLoss`,
by contrast, returns the holding unchanged for any price ≤ 0. -/
theorem c1_route_full_loss_model_unchanged :
    (∀ (prices : String → Option ℚ) (now : ℤ) (h : Holding),
      (prices h.coinId = none ∨ prices h.coinId = some 0) →
      0 < h.amount * h.buyPrice →
        (routeAugment prices now h).currentValue = 0
        ∧ (routeAugment prices now h).profitLoss = -(h.amount * h.buyPrice)
        ∧ (routeAugment prices now h).profitLossPercentage = -100)
    ∧ (∀ (h : Holding) (cp : ℚ) (now : ℤ), cp ≤ 0 → h.calculateProfitLoss cp now = h)
    ∧ (routeAugment exPriceNone 0 exHoldingLoss).currentValue = 0
    ∧ (routeAugment exPriceNone 0 exHoldingLoss).profitLoss = -50
    ∧ (routeAugment exPriceNone 0 exHoldingLoss).profitLossPercentage = -100 := by
  refine ⟨?_, ?_,
    by norm_num [routeAugment, resolvePrice, exPriceNone, exHoldingLoss],
    by norm_num [routeAugment, resolvePrice, exPriceNone, exHoldingLoss],
    by norm_num [routeAugment, resolvePrice, exPriceNone, exHoldingLoss]⟩
  · intro prices now h hp hinv
    have hcp : resolvePrice prices h.coinId = 0 := by
      rcases hp with hp | hp <;> simp [resolvePrice, hp]
    refine ⟨?_, ?_, ?_⟩ <;>
      simp only [routeAugment, hcp, mul_zero, zero_sub, if_pos hinv]
    rw [neg_div, div_self (ne_of_gt hinv), neg_mul, one_mul]
  · intro h cp now hcp
    simp [Holding.calculateProfitLoss, hcp]

/-- C1 (witness): the amended theorem applied to the concrete holding
`{amount: 1, buyPrice: 50}` with every quote missing. -/
theorem c1_witness :
    (routeAugment exPriceNone 3 exHoldingLoss).currentValue = 0
    ∧ (routeAugment exPriceNone 3 exHoldingLoss).profitLoss =
        -(exHoldingLoss.amount * exHoldingLoss.buyPrice)
    ∧ (routeAugment exPriceNone 3 exHoldingLoss).profitLossPercentage = -100 :=
  c1_route_full_loss_model_unchanged.1 exPriceNone 3 exHoldingLoss (Or.inl rfl)
    (by norm_num [exHoldingLoss])

/-- C2: both the portfolio route's inline valuation and the analytics
augmentation compute `investment = amount * buyPrice`,
`currentValue = amount * currentPrice`,
`profitLoss = currentValue - investment`, and
`profitLossPercentage = (profitLoss / investment) * 100` when
`investment > 0` (and 0 otherwise); the holding `{amount: 2, buyPrice: 100}`
at current price 150 yields investment 200, current value 300, profit 100
and percentage 50. -/
theorem c2_valuation_formulas :
    (∀ (prices : String → Option ℚ) (h : Holding),
      (analyticsAug prices h).investment = h.amount * h.buyPrice
      ∧ (analyticsAug prices h).currentPrice = resolvePrice prices h.coinId
      ∧ (analyticsAug prices h).currentValue = h.amount * (analyticsAug prices h).currentPrice
      ∧ (analyticsAug prices h).profitLoss =
          (analyticsAug prices h).currentValue - (analyticsAug prices h).investment
      ∧ (0 < (analyticsAug prices h).investment →
          (analyticsAug prices h).profitLossPercentage =
            ((analyticsAug prices h).profitLoss / (analyticsAug prices h).investment) * 100)
      ∧ (¬ 0 < (analyticsAug prices h).investment →
          (analyticsAug prices h).profitLossPercentage = 0))
    ∧ (∀ (prices : String → Option ℚ) (now : ℤ) (h : Holding),
      (routeAugment prices now h).currentPrice = resolvePrice prices h.coinId
      ∧ (routeAugment prices now h).currentValue =
          h.amount * (routeAugment prices now h).currentPrice
      ∧ (routeAugment prices now h).profitLoss =
          (routeAugment prices now h).currentValue - h.amount * h.buyPrice
      ∧ (0 < h.amount * h.buyPrice →
          (routeAugment prices now h).profitLossPercentage =
            ((routeAugment prices now h).profitLoss / (h.amount * h.buyPrice)) * 100))
    ∧ (analyticsAug exPrice150 exHoldingGain).investment = 200
    ∧ (analyticsAug exPrice150 exHoldingGain).currentValue = 300
    ∧ (analyticsAug exPrice150 exHoldingGain).profitLoss = 100
    ∧ (analyticsAug exPrice150 exHoldingGain).profitLossPercentage = 50 := by
  refine ⟨?_, ?_,
    by norm_num [analyticsAug, resolvePrice, exPrice150, exHoldingGain],
    by norm_num [analyticsAug, resolvePrice, exPrice150, exHoldingGain],
    by norm_num [analyticsAug, resolvePrice, exPrice150, exHoldingGain],
    by norm_num [analyticsAug, resolvePrice, exPrice150, exHoldingGain]⟩
  · intro prices h
    refine ⟨rfl, rfl, rfl, rfl, ?_, ?_⟩
    · intro hinv
      simp only [analyticsAug] at hinv ⊢
      rw [if_pos hinv]
    · intro hinv
      simp only [analyticsAug] at hinv ⊢
      rw [if_neg hinv]
  · intro prices now h
    refine ⟨rfl, rfl, rfl, ?_⟩
    intro hinv
    simp only [routeAugment]
    rw [if_pos hinv]

/-- C2 (witness): the formulas applied at the concrete gain scenario. -/
theorem c2_witness :
    0 < (analyticsAug exPrice150 exHoldingGain).investment
    ∧ (analyticsAug exPrice150 exHoldingGain).profitLossPercentage =
        ((analyticsAug exPrice150 exHoldingGain).profitLoss /
          (analyticsAug exPrice150 exHoldingGain).investment) * 100 :=
  ⟨by norm_num [analyticsAug, exHoldingGain],
   (c2_valuation_formulas.1 exPrice150 exHoldingGain).2.2.2.2.1
     (by norm_num [analyticsAug, exHoldingGain])⟩

/-- C9: when `calculateProfitLoss` is invoked with a current price that is
falsy or ≤ 0, the holding is returned as-is — every field, the derived
ones and `lastUpdated` included, is left unchanged. -/
theorem c9_calculateProfitLoss_noop (h : Holding) (cp : ℚ) (now : ℤ) (hcp : cp ≤ 0) :
    h.calculateProfitLoss cp now = h := by
  simp [Holding.calculateProfitLoss, hcp]

/-- C9 (witness): the no-op behaviour at price 0 on a holding with stored
derived fields. -/
theorem c9_witness :
    (0 : ℚ) ≤ 0
    ∧ ({ exHoldingGain with profitLoss := 77 } : Holding).calculateProfitLoss 0 5 =
        { exHoldingGain with profitLoss := 77 } :=
  ⟨le_refl 0, c9_calculateProfitLoss_noop { exHoldingGain with profitLoss := 77 } 0 5 (le_refl 0)⟩

/-- C3: the TTL is fixed at 60000 ms at construction; `set` immediately
followed by `get` returns the stored value; and for any stored entry,
`get` at time `now` returns the value exactly when
`now - storedAt < ttl`, behaving as absent otherwise even though the entry
was never removed. -/
theorem c3_cache_set_get_ttl :
    cacheTimeout = 60000
    ∧ (∀ (α : Type) (m : CacheMap α) (key : String) (v : α) (t : ℤ),
        getCachedData (setCachedData m key v t) key t = some v)
    ∧ (∀ (α : Type) (m : CacheMap α) (key : String) (e : CacheEntry α) (now : ℤ),
        m key = some e →
        getCachedData m key now =
          if now - e.timestamp < cacheTimeout then some e.data else none) := by
  refine ⟨rfl, ?_, ?_⟩
  · intro α m key v t
    simp [getCachedData, setCachedData, cacheTimeout]
  · intro α m key e now hm
    simp [getCachedData, hm]

/-- C3 (witness): a concrete set-then-get hit and a concrete expired read. -/
theorem c3_witness :
    getCachedData (setCachedData (fun _ => none : CacheMap ℚ) "coins_list" 42 1000)
        "coins_list" 1000 = some 42
    ∧ getCachedData (setCachedData (fun _ => none : CacheMap ℚ) "coins_list" 42 1000)
        "coins_list" 70000 =
      (if (70000 : ℤ) - 1000 < cacheTimeout then some (42 : ℚ) else none) :=
  ⟨c3_cache_set_get_ttl.2.1 ℚ (fun _ => none) "coins_list" 42 1000,
   c3_cache_set_get_ttl.2.2 ℚ _ "coins_list" { data := 42, timestamp := 1000 } 70000
     (by simp [setCachedData])⟩

/-- C4 (counterexample): the memo-cache key is NOT the sorted coin-id set —
it joins the ids in request order — so requesting `["btc","eth"]` and then
the permutation `["eth","btc"]` one millisecond later misses the cache and
issues a second upstream call (the claim requires the second request to
issue no additional upstream call). -/
theorem c4_permutation_misses_cache :
    c4FirstCall.2.upstreamCalls = 1 ∧ c4SecondCall.2.upstreamCalls = 2 := by
  constructor <;> rfl

/-- C4 (amended): the memo cache is keyed by the coin ids joined in request
order plus the currencies, so two requests with the SAME ordered coin-id
list and currencies within one cache window (starting from a fresh service)
use the same cache entry: the second returns the first call's payload and
leaves the service state — cache and upstream call count — unchanged.
Permuting the ids changes the key and is not served from cache. -/
theorem c4_same_order_served_from_cache :
    ∀ (upstream : List String → List String → PriceData) (ids curs : List String) (t1 t2 : ℤ),
      t2 - t1 < cacheTimeout →
      getSimplePrices upstream ids curs t2
          (getSimplePrices upstream ids curs t1 initialState).2 =
        ((getSimplePrices upstream ids curs t1 initialState).1,
         (getSimplePrices upstream ids curs t1 initialState).2) := by
  intro upstream ids curs t1 t2 ht
  cases ids with
  | nil => simp [getSimplePrices, initialState]
  | cons a as =>
    simp [getSimplePrices, initialState, getCachedData, setCachedData, ht]

/-- C4 (witness): the amended theorem at a concrete repeated request. -/
theorem c4_witness :
    getSimplePrices mockUpstream ["eth", "btc"] ["usd"] 59999
        (getSimplePrices mockUpstream ["eth", "btc"] ["usd"] 0 initialState).2 =
      ((getSimplePrices mockUpstream ["eth", "btc"] ["usd"] 0 initialState).1,
       (getSimplePrices mockUpstream ["eth", "btc"] ["usd"] 0 initialState).2) :=
  c4_same_order_served_from_cache mockUpstream ["eth", "btc"] ["usd"] 0 59999 (by decide)

/-- C5: starting from a fresh service, two successive `getSimplePrices`
calls with identical arguments within the TTL window issue at most one
upstream HTTP call in total: the second call returns the same payload and
adds no upstream call. -/
theorem c5_identical_batch_single_upstream_call :
    ∀ (upstream : List String → List String → PriceData) (ids curs : List String) (t1 t2 : ℤ),
      t2 - t1 < cacheTimeout →
      (getSimplePrices upstream ids curs t2
          (getSimplePrices upstream ids curs t1 initialState).2).2.upstreamCalls ≤ 1
      ∧ (getSimplePrices upstream ids curs t2
          (getSimplePrices upstream ids curs t1 initialState).2).1 =
        (getSimplePrices upstream ids curs t1 initialState).1
      ∧ (getSimplePrices upstream ids curs t2
          (getSimplePrices upstream ids curs t1 initialState).2).2.upstreamCalls =
        (getSimplePrices upstream ids curs t1 initialState).2.upstreamCalls := by
  intro upstream ids curs t1 t2 ht
  cases ids with
  | nil => simp [getSimplePrices, initialState]
  | cons a as =>
    simp [getSimplePrices, initialState, getCachedData, setCachedData, ht]

/-- C5 (witness): the `{btc, eth}` batch requested twice 30 seconds apart. -/
theorem c5_witness :
    (getSimplePrices mockUpstream ["btc", "eth"] ["usd"] 30000
        (getSimplePrices mockUpstream ["btc", "eth"] ["usd"] 0 initialState).2).2.upstreamCalls ≤ 1
    ∧ (getSimplePrices mockUpstream ["btc", "eth"] ["usd"] 30000
        (getSimplePrices mockUpstream ["btc", "eth"] ["usd"] 0 initialState).2).1 =
      (getSimplePrices mockUpstream ["btc", "eth"] ["usd"] 0 initialState).1
    ∧ (getSimplePrices mockUpstream ["btc", "eth"] ["usd"] 30000
        (getSimplePrices mockUpstream ["btc", "eth"] ["usd"] 0 initialState).2).2.upstreamCalls =
      (getSimplePrices mockUpstream ["btc", "eth"] ["usd"] 0 initialState).2.upstreamCalls :=
  c5_identical_batch_single_upstream_call mockUpstream ["btc", "eth"] ["usd"] 0 30000 (by decide)

/-- C6 (counterexample): the claim asserts that a coin-not-found failure and
a transport failure are distinguishable in the raised error; in the code
`getCoin` rethrows every failure as the same generic
`Error('Failed to fetch data for coin: <coinId>')`, so the two causes
produce identical errors. -/
theorem c6_failures_indistinguishable :
    (getCoin mockNotFound "btc" 0 initialState).1 =
      (getCoin mockTransportFail "btc" 0 initialState).1
    ∧ (getCoin mockNotFound "btc" 0 initialState).1 =
      Except.error "Failed to fetch data for coin: btc" :=
  ⟨rfl, rfl⟩

/-- C6 (amended): on a cache miss `getCoin` fails with the single generic
error `Failed to fetch data for coin: <coinId>` both when the upstream
reports no such coin and when the transport fails; the error is propagated
to the caller in both cases, but the two causes are not distinguishable. -/
theorem c6_getCoin_generic_error :
    ∀ (u1 u2 : String → UpstreamResult CoinData) (coinId : String) (now : ℤ)
      (s : ServiceState CoinData),
      getCachedData s.cache ("coin_" ++ coinId) now = none →
      u1 coinId = UpstreamResult.notFound →
      (∃ cause, u2 coinId = UpstreamResult.transportError cause) →
      (getCoin u1 coinId now s).1 = Except.error ("Failed to fetch data for coin: " ++ coinId)
      ∧ (getCoin u2 coinId now s).1 = Except.error ("Failed to fetch data for coin: " ++ coinId)
      ∧ (getCoin u1 coinId now s).1 = (getCoin u2 coinId now s).1 := by
  intro u1 u2 coinId now s hmiss h1 h2
  obtain ⟨cause, h2⟩ := h2
  refine ⟨?_, ?_, ?_⟩ <;> simp [getCoin, hmiss, h1, h2]

/-- C6 (witness): the amended theorem at the two concrete mocked upstreams. -/
theorem c6_witness :
    (getCoin mockNotFound "dogecoin" 5 initialState).1 =
      Except.error ("Failed to fetch data for coin: " ++ "dogecoin")
    ∧ (getCoin mockTransportFail "dogecoin" 5 initialState).1 =
      Except.error ("Failed to fetch data for coin: " ++ "dogecoin")
    ∧ (getCoin mockNotFound "dogecoin" 5 initialState).1 =
      (getCoin mockTransportFail "dogecoin" 5 initialState).1 :=
  c6_getCoin_generic_error mockNotFound mockTransportFail "dogecoin" 5 initialState rfl rfl
    ⟨"ECONNABORTED", rfl⟩

/-- Stability of `sortedByPerformance`, specialized from `filter_sortKeyDesc`. -/
theorem filter_sortedByPerformance (l : List AugHolding) (q : ℚ) :
    (sortedByPerformance l).filter (fun a => decide (a.profitLossPercentage = q)) =
      l.filter (fun a => decide (a.profitLossPercentage = q)) :=
  filter_sortKeyDesc (fun a => a.profitLossPercentage) l q

/-- The percentage column of `allocationByInvestment` sums like the raw
per-holding percentages (sorting permutes, mapping composes). -/
theorem sum_map_alloc_invest (l : List AugHolding) :
    ((allocationByInvestment l).map (·.percentage)).sum =
      (l.map (fun h =>
        if 0 < totalInvestment l then h.investment / totalInvestment l * 100 else 0)).sum := by
  rw [allocationByInvestment, sum_map_sortKeyDesc, List.map_map]
  rfl

/-- The percentage column of `allocationByValue` sums like the raw filtered
per-holding percentages. -/
theorem sum_map_alloc_value (l : List AugHolding) :
    ((allocationByValue l).map (·.percentage)).sum =
      ((l.filter (fun h => decide (0 < h.currentValue))).map (fun h =>
        if 0 < totalCurrentValue l then h.currentValue / totalCurrentValue l * 100 else 0)).sum := by
  rw [allocationByValue, sum_map_sortKeyDesc, List.map_map]
  rfl

/-- Dropping the zero-value holdings does not change the current-value sum. -/
theorem sum_cv_filter (l : List AugHolding) (hnn : ∀ h ∈ l, 0 ≤ h.currentValue) :
    ((l.filter (fun h => decide (0 < h.currentValue))).map (fun h => h.currentValue)).sum =
      totalCurrentValue l :=
  sum_map_filter_pos (fun h => h.currentValue) l hnn

/-- Evaluating the allocation-scenario augmented holdings: bitcoin is
quoted at 150 (gain), the ethereum quote is missing so its price resolves
to 0 (full notional loss). -/
theorem exAug_eq :
    exAug =
      [{ coinId := "bitcoin", coinName := "", symbol := "", amount := 1, buyPrice := 100,
         currentPrice := 150, currentValue := 150, profitLoss := 50,
         profitLossPercentage := 50, investment := 100 },
       { coinId := "ethereum", coinName := "", symbol := "", amount := 2, buyPrice := 150,
         currentPrice := 0, currentValue := 0, profitLoss := -300,
         profitLossPercentage := -100, investment := 300 }] := by
  have hb : exPrices "bitcoin" = some 150 := rfl
  have he : exPrices "ethereum" = none := rfl
  norm_num [exAug, holdingsWithCalc, exPortfolio, analyticsAug, resolvePrice, hb, he]

/-- C7 (counterexample): the claim requires the worst-`n` list to preserve
the original input order among equal percentages; for two holdings that
both have 0% performance, `worstPerformers` (the reversed tail of the
descending sort) returns them in reversed input order. -/
theorem c7_worst_reverses_ties :
    (mkPerf "first" 0).profitLossPercentage = (mkPerf "second" 0).profitLossPercentage
    ∧ worstPerformers 2 tieExample = [mkPerf "second" 0, mkPerf "first" 0]
    ∧ worstPerformers 2 tieExample ≠ tieExample := by
  refine ⟨rfl, ?_, ?_⟩
  · norm_num [worstPerformers, sortedByPerformance, sortKeyDesc, insertKeyDesc, tieExample,
      mkPerf]
  · norm_num [worstPerformers, sortedByPerformance, sortKeyDesc, insertKeyDesc, tieExample,
      mkPerf]
    decide

/-- C7 (amended): the top-`n` list is sorted descending by
`profitLossPercentage` and the worst-`n` list ascending; ties in the top
list preserve the original input order, while ties in the worst list appear
in REVERSED input order (the worst list is the reversed tail of the
descending sort); for performances `[+10%, -5%, +30%, 0%]` and `n = 2` the
top list is `[+30%, +10%]` and the worst list `[-5%, 0%]`. -/
theorem c7_rank_performers :
    (∀ (l : List AugHolding) (n : Nat),
      (topPerformers n l).Pairwise
        (fun a b => b.profitLossPercentage ≤ a.profitLossPercentage))
    ∧ (∀ (l : List AugHolding) (n : Nat),
      (worstPerformers n l).Pairwise
        (fun a b => a.profitLossPercentage ≤ b.profitLossPercentage))
    ∧ (∀ (l : List AugHolding) (n : Nat) (q : ℚ),
      (topPerformers n l).filter (fun a => decide (a.profitLossPercentage = q)) <+:
        l.filter (fun a => decide (a.profitLossPercentage = q)))
    ∧ (∀ (l : List AugHolding) (n : Nat) (q : ℚ),
      (worstPerformers n l).filter (fun a => decide (a.profitLossPercentage = q)) <+:
        (l.filter (fun a => decide (a.profitLossPercentage = q))).reverse)
    ∧ topPerformers 2 perfExample = [mkPerf "c" 30, mkPerf "a" 10]
    ∧ worstPerformers 2 perfExample = [mkPerf "b" (-5), mkPerf "d" 0] := by
  refine ⟨?_, ?_, ?_, ?_, ?_, ?_⟩
  · intro l n
    exact List.Pairwise.sublist (List.take_sublist n _)
      (pairwise_sortKeyDesc (fun a => a.profitLossPercentage) l)
  · intro l n
    rw [worstPerformers, List.pairwise_reverse]
    exact List.Pairwise.sublist (List.drop_sublist _ _)
      (pairwise_sortKeyDesc (fun a => a.profitLossPercentage) l)
  · intro l n q
    have h1 := List.IsPrefix.filter (fun a => decide (a.profitLossPercentage = q))
      (List.take_prefix n (sortedByPerformance l))
    rwa [filter_sortedByPerformance] at h1
  · intro l n q
    have h1 := List.IsSuffix.filter (fun a => decide (a.profitLossPercentage = q))
      (List.drop_suffix (l.length - n) (sortedByPerformance l))
    rw [filter_sortedByPerformance] at h1
    rw [worstPerformers, List.filter_reverse]
    exact List.reverse_prefix.mpr h1
  · norm_num [topPerformers, sortedByPerformance, sortKeyDesc, insertKeyDesc, perfExample,
      mkPerf]
  · norm_num [worstPerformers, sortedByPerformance, sortKeyDesc, insertKeyDesc, perfExample,
      mkPerf]

/-- C7 (witness): the amended theorem instantiated at the concrete ranking
scenario. -/
theorem c7_witness :
    (topPerformers 2 perfExample).Pairwise
      (fun a b => b.profitLossPercentage ≤ a.profitLossPercentage)
    ∧ (worstPerformers 2 perfExample).Pairwise
      (fun a b => a.profitLossPercentage ≤ b.profitLossPercentage)
    ∧ (topPerformers 2 perfExample).filter (fun a => decide (a.profitLossPercentage = 0)) <+:
        perfExample.filter (fun a => decide (a.profitLossPercentage = 0)) :=
  ⟨c7_rank_performers.1 perfExample 2, c7_rank_performers.2.1 perfExample 2,
   c7_rank_performers.2.2.1 perfExample 2 0⟩

/-- C8: the allocation percentages sum to exactly 100 whenever the chosen
total is strictly positive (for `allocationByValue` under the holdings'
nonnegative current values) and to 0 when the total is 0; the zero-total
guard yields 0%, never an undefined value. -/
theorem c8_allocation_sums :
    ∀ l : List AugHolding,
      (0 < totalInvestment l →
        ((allocationByInvestment l).map (·.percentage)).sum = 100)
      ∧ (totalInvestment l = 0 →
        ((allocationByInvestment l).map (·.percentage)).sum = 0)
      ∧ ((∀ h ∈ l, 0 ≤ h.currentValue) →
        (0 < totalCurrentValue l →
          ((allocationByValue l).map (·.percentage)).sum = 100)
        ∧ (totalCurrentValue l = 0 →
          ((allocationByValue l).map (·.percentage)).sum = 0)) := by
  intro l
  refine ⟨?_, ?_, ?_⟩
  · intro hT
    have hTne : totalInvestment l ≠ 0 := ne_of_gt hT
    rw [sum_map_alloc_invest]
    simp only [if_pos hT]
    have hrw : (fun h : AugHolding => h.investment / totalInvestment l * 100)
        = fun h => h.investment * (100 / totalInvestment l) := funext fun h => by ring
    rw [hrw, List.sum_map_mul_right]
    show totalInvestment l * (100 / totalInvestment l) = 100
    field_simp
  · intro hT0
    rw [sum_map_alloc_invest, hT0]
    simp
  · intro hnn
    constructor
    · intro hT
      have hTne : totalCurrentValue l ≠ 0 := ne_of_gt hT
      rw [sum_map_alloc_value]
      simp only [if_pos hT]
      have hrw : (fun h : AugHolding => h.currentValue / totalCurrentValue l * 100)
          = fun h => h.currentValue * (100 / totalCurrentValue l) := funext fun h => by ring
      rw [hrw, List.sum_map_mul_right, sum_cv_filter l hnn]
      field_simp
    · intro hT0
      rw [sum_map_alloc_value, hT0]
      simp

/-- C8 (witness): a two-holding portfolio (one quote missing) whose
allocation percentages sum to 100 on both breakdowns. -/
theorem c8_witness :
    ((allocationByInvestment exAug).map (·.percentage)).sum = 100
    ∧ ((allocationByValue exAug).map (·.percentage)).sum = 100 :=
  ⟨(c8_allocation_sums exAug).1
      (by rw [exAug_eq]; norm_num [totalInvestment]),
   (((c8_allocation_sums exAug).2.2
      (by
        rw [exAug_eq]
        intro h hm
        simp only [List.mem_cons, List.not_mem_nil, or_false] at hm
        rcases hm with rfl | rfl <;> norm_num)).1
      (by rw [exAug_eq]; norm_num [totalCurrentValue]))⟩

/-- C10: `allocationByValue` contains an entry only for holdings with
strictly positive computed current value (its length is that of the
filtered holdings), while `allocationByInvestment` has one entry per
holding; on the concrete portfolio whose ethereum quote is missing
(price 0), ethereum is omitted from the by-value list (1 entry of 2) but
present in the by-investment list (2 entries). -/
theorem c10_value_allocation_filters_zero :
    (∀ l : List AugHolding,
      (∀ e ∈ allocationByValue l, 0 < e.value)
      ∧ (allocationByValue l).length =
          (l.filter (fun h => decide (0 < h.currentValue))).length
      ∧ (allocationByInvestment l).length = l.length)
    ∧ (allocationByValue exAug).length = 1
    ∧ (allocationByInvestment exAug).length = 2 := by
  have hlenv : ∀ l : List AugHolding,
      (allocationByValue l).length =
        (l.filter (fun h => decide (0 < h.currentValue))).length := by
    intro l
    rw [allocationByValue, length_sortKeyDesc, List.length_map]
  have hleni : ∀ l : List AugHolding, (allocationByInvestment l).length = l.length := by
    intro l
    rw [allocationByInvestment, length_sortKeyDesc, List.length_map]
  refine ⟨fun l => ⟨?_, hlenv l, hleni l⟩, ?_, ?_⟩
  · intro e he
    rw [allocationByValue] at he
    have he2 := (perm_sortKeyDesc (fun a : ValueAlloc => a.value) _).mem_iff.mp he
    obtain ⟨h, hh, rfl⟩ := List.mem_map.mp he2
    exact of_decide_eq_true (List.mem_filter.mp hh).2
  · rw [hlenv, exAug_eq]
    norm_num [List.filter]
  · rw [hleni, exAug_eq]
    norm_num

/-- C10 (witness): the membership and length facts at the concrete
portfolio. -/
theorem c10_witness :
    (∀ e ∈ allocationByValue exAug, 0 < e.value)
    ∧ (allocationByValue exAug).length =
        (exAug.filter (fun h => decide (0 < h.currentValue))).length
    ∧ (allocationByInvestment exAug).length = exAug.length :=
  c10_value_allocation_filters_zero.1 exAug

end CryptoTrack
